import Mathlib

/-!
Shallow embedding of the multi-vendor order placement and status
reconciliation engine (NestJS/Mongoose service layer): products with
stock counters, orders partitioned into per-vendor sub-orders, the
conditional stock decrement, and the status propagation rules.

All persistent collections are modelled as lists of records; mongoose
queries become list lookups; the MongoDB transaction in order creation
becomes "run the body on the state, keep the old state on error".
JavaScript numbers are modelled as unbounded integers (exact arithmetic).
-/

deriving instance DecidableEq for Except

namespace VendorOrder

/-- Mongo ObjectIds are modelled as strings. -/
abbrev Oid := String

/-- `UserRole` from `users/schemas/user.schema.ts`. -/
inductive UserRole
  | customer
  | vendor
  | admin
deriving DecidableEq

/-- `OrderStatus` from `orders/dto/query-orders.dto.ts`. -/
inductive OrderStatus
  | pending
  | processing
  | shipped
  | delivered
  | cancelled
deriving DecidableEq

/-- The part of `User` (`users/schemas/user.schema.ts`) the order flow reads. -/
structure User where
  _id : Oid
  role : UserRole
deriving DecidableEq

/-- `Product` from `products/schemas/product.schema.ts`. -/
structure Product where
  _id : Oid
  name : String
  price : Int
  stock : Int
  category : String
  vendorId : Oid
deriving DecidableEq

/-- Order line item as stored on orders (`orders/schemas/order.schema.ts`
and the `OrderItem` interface in `orders.service.ts`). -/
structure OrderItem where
  productId : Oid
  name : String
  price : Int
  quantity : Int
  vendorId : Oid
deriving DecidableEq

/-- `SubOrder` from `orders/schemas/sub-order.schema.ts`. -/
structure SubOrder where
  _id : Oid
  parentOrderId : Oid
  vendorId : Oid
  items : List OrderItem
  amount : Int
  status : OrderStatus
deriving DecidableEq

/-- `Order` from `orders/schemas/order.schema.ts`; `subOrders` holds the
referenced sub-order ids. -/
structure Order where
  _id : Oid
  customerId : Oid
  items : List OrderItem
  totalAmount : Int
  status : OrderStatus
  subOrders : List Oid
deriving DecidableEq

/-- A cart line from `CreateOrderDto` (`orders/dto/create-order.dto.ts`,
`OrderItemDto`). -/
structure OrderItemDto where
  productId : Oid
  quantity : Int
deriving DecidableEq

/-- The three mongoose collections the order flow touches. -/
structure DB where
  products : List Product
  orders : List Order
  subOrders : List SubOrder
deriving DecidableEq

/-- The HTTP-level exceptions thrown by the services, with the data the
messages carry. -/
inductive Err
  | forbidden (msg : String)
  | notFound (msg : String)
  /-- `BadRequestException` listing products not found or out of stock. -/
  | productsNotFound (ids : List Oid)
  /-- `BadRequestException` for a single product in the per-item loop
  (`Product with ID ... not found or out of stock`). -/
  | productNotFound (productId : Oid)
  /-- `BadRequestException` for a product found but with too little stock
  at validation (`Not enough stock for product ...`). -/
  | notEnoughStock (name : String) (available requested : Int)
  /-- `BadRequestException` from `decrementStock`
  (`Product ... not found or has insufficient stock`). -/
  | decrementFailed (productId : Oid)
  | internal (msg : String)
deriving DecidableEq

/-- `findOneAndUpdate` / `findByIdAndUpdate`: rewrite the first record
matching `p` (mongoose updates a single document). -/
def updateFirst (p : α → Bool) (f : α → α) : List α → List α
  | [] => []
  | x :: xs => if p x then f x :: xs else x :: updateFirst p f xs

/-- Look a product up by id (`findById`). -/
def DB.product? (db : DB) (id : Oid) : Option Product :=
  db.products.find? (fun p => p._id == id)

/-- Look a parent order up by id (`orderModel.findById`). -/
def DB.order? (db : DB) (id : Oid) : Option Order :=
  db.orders.find? (fun o => o._id == id)

/-- Look a sub-order up by id (`subOrderModel.findById`). -/
def DB.subOrder? (db : DB) (id : Oid) : Option SubOrder :=
  db.subOrders.find? (fun so => so._id == id)

/-- The collections hold at most one record per id. -/
def DB.WF (db : DB) : Prop :=
  (db.products.map (·._id)).Nodup ∧ (db.orders.map (·._id)).Nodup ∧
    (db.subOrders.map (·._id)).Nodup

/-- `ProductsService.getProductsInStock`: the requested products that
have `stock > 0`. -/
def getProductsInStock (db : DB) (ids : List Oid) : List Product :=
  db.products.filter (fun p => ids.contains p._id && decide (0 < p.stock))

/-- `ProductsService.decrementStock`: atomic conditional decrement via
`findOneAndUpdate({_id, stock ≥ qty}, {$inc: {stock: -qty}}, {new: true})`;
throws `BadRequestException` when no document matches. On failure the
collection is untouched (no matching document was updated). -/
def decrementStock (db : DB) (productId : Oid) (quantity : Int) :
    Except Err (DB × Product) :=
  match db.products.find? (fun p => p._id == productId && decide (quantity ≤ p.stock)) with
  | none => .error (.decrementFailed productId)
  | some p =>
    .ok ({ db with
            products := updateFirst
              (fun q => q._id == productId && decide (quantity ≤ q.stock))
              (fun q => { q with stock := q.stock - quantity }) db.products },
         { p with stock := p.stock - quantity })

/-- `UpdateProductDto` (`products/dto/update-product.dto.ts`): all fields
optional. -/
structure UpdateProductDto where
  name : Option String
  price : Option Int
  stock : Option Int
  category : Option String
deriving DecidableEq

/-- `findByIdAndUpdate(id, updateProductDto)`: `$set` of exactly the
fields present in the dto. -/
def applyProductUpdate (dto : UpdateProductDto) (p : Product) : Product :=
  { p with
      name := dto.name.getD p.name
      price := dto.price.getD p.price
      stock := dto.stock.getD p.stock
      category := dto.category.getD p.category }

/-- `ProductsService.update`: ownership/role checks, then
`findByIdAndUpdate` with the dto. -/
def productsUpdate (db : DB) (id : Oid) (dto : UpdateProductDto) (user : User) :
    Except Err (DB × Product) :=
  match db.product? id with
  | none => .error (.notFound ("Product with ID " ++ id ++ " not found"))
  | some product =>
    if user.role = .vendor ∧ product.vendorId ≠ user._id then
      .error (.forbidden "You can only update your own products")
    else if user.role ≠ .admin ∧ user.role ≠ .vendor then
      .error (.forbidden "You do not have permission to update products")
    else
      .ok ({ db with
              products := updateFirst (fun q => q._id == id)
                (applyProductUpdate dto) db.products },
           applyProductUpdate dto product)

/-- `StockUpdate` interface in `orders.service.ts`. -/
structure StockUpdate where
  productId : Oid
  quantity : Int
deriving DecidableEq

/-- `productMap.get(id)` over the in-stock snapshot. -/
def productMapGet (products : List Product) (id : Oid) : Option Product :=
  products.find? (fun p => p._id == id)

/-- The `missingProducts` computation in `OrdersService.create`. -/
def missingProducts (products : List Product) (productIds : List Oid) : List Oid :=
  productIds.filter (fun i => (productMapGet products i).isNone)

/-- The per-item stock validation loop in `OrdersService.create`. -/
def checkStock (products : List Product) : List OrderItemDto → Except Err Unit
  | [] => .ok ()
  | it :: rest =>
    match productMapGet products it.productId with
    | none => .error (.productNotFound it.productId)
    | some product =>
      if product.stock < it.quantity then
        .error (.notEnoughStock product.name product.stock it.quantity)
      else checkStock products rest

/-- Append `item` to the group of `vendorId`, creating the group at the
end on first encounter (JS `Map` iterates in insertion order). -/
def pushGroup (vendorId : Oid) (item : OrderItem) :
    List (Oid × List OrderItem) → List (Oid × List OrderItem)
  | [] => [(vendorId, [item])]
  | g :: rest =>
    if g.1 == vendorId then (g.1, g.2 ++ [item]) :: rest
    else g :: pushGroup vendorId item rest

/-- Accumulator of the item-processing loop in `OrdersService.create`:
`orderItems`, `vendorItems`, `totalAmount`, `stockUpdates`. -/
structure BuildAcc where
  orderItems : List OrderItem
  vendorItems : List (Oid × List OrderItem)
  totalAmount : Int
  stockUpdates : List StockUpdate
deriving DecidableEq

/-- One iteration of that loop: unfound products are skipped (the
`continue` branch), otherwise the captured item is recorded everywhere. -/
def stepItem (products : List Product) (acc : BuildAcc) (it : OrderItemDto) : BuildAcc :=
  match productMapGet products it.productId with
  | none => acc
  | some product =>
    let orderItem : OrderItem :=
      { productId := it.productId, name := product.name, price := product.price,
        quantity := it.quantity, vendorId := product.vendorId }
    { orderItems := acc.orderItems ++ [orderItem]
      vendorItems := pushGroup product.vendorId orderItem acc.vendorItems
      totalAmount := acc.totalAmount + product.price * it.quantity
      stockUpdates := acc.stockUpdates ++ [⟨it.productId, it.quantity⟩] }

/-- The whole item-processing loop. -/
def buildAcc (products : List Product) (items : List OrderItemDto) : BuildAcc :=
  items.foldl (stepItem products) ⟨[], [], 0, []⟩

/-- `items.reduce((sum, item) => sum + item.price * item.quantity, 0)`. -/
def subOrderAmount (items : List OrderItem) : Int :=
  items.foldl (fun sum item => sum + item.price * item.quantity) 0

/-- The sub-orders saved for the vendor groups, in group order; fresh ids
are supplied by `sid` (mongoose generates one per document). -/
def mkSubOrders (parentId : Oid) (sid : Nat → Oid)
    (groups : List (Oid × List OrderItem)) : List SubOrder :=
  groups.enum.map (fun kg =>
    { _id := sid kg.1, parentOrderId := parentId, vendorId := kg.2.1,
      items := kg.2.2, amount := subOrderAmount kg.2.2, status := .pending })

/-- The final loop of `OrdersService.create`: reserve stock for every
cart line in order, threading the session state. -/
def applyStockUpdates (db : DB) : List StockUpdate → Except Err DB
  | [] => .ok db
  | u :: rest =>
    match decrementStock db u.productId u.quantity with
    | .error e => .error e
    | .ok r => applyStockUpdates r.1 rest

/-- The transactional body of `OrdersService.create` (everything inside
the `try`), run against session state `db`; `oid` is the fresh id of the
parent order and `sid k` the fresh id of the k-th created sub-order. -/
def createTx (db : DB) (dto : List OrderItemDto) (user : User)
    (oid : Oid) (sid : Nat → Oid) : Except Err (DB × Order) :=
  let productIds := dto.map (·.productId)
  let products := getProductsInStock db productIds
  let missing := missingProducts products productIds
  if missing.isEmpty then
    match checkStock products dto with
    | .error e => .error e
    | .ok _ =>
      let acc := buildAcc products dto
      let subs := mkSubOrders oid sid acc.vendorItems
      let order : Order :=
        { _id := oid, customerId := user._id, items := acc.orderItems,
          totalAmount := acc.totalAmount, status := .pending,
          subOrders := subs.map (·._id) }
      let db₁ : DB :=
        { db with
            orders := db.orders ++ [{ order with subOrders := [] }],
            subOrders := db.subOrders ++ subs }
      let db₂ : DB :=
        { db₁ with
            orders := updateFirst (fun o => o._id == oid)
              (fun o => { o with subOrders := subs.map (·._id) }) db₁.orders }
      match applyStockUpdates db₂ acc.stockUpdates with
      | .error e => .error e
      | .ok db₃ => .ok (db₃, order)
  else .error (.productsNotFound missing)

/-- `OrdersService.create` (`placeOrder`): role gate, then the body in a
MongoDB transaction — on success the session state is committed, on any
error `abortTransaction` restores the pre-call state and the classified
error is rethrown. The first component is the observable state after the
call. -/
def create (db : DB) (dto : List OrderItemDto) (user : User)
    (oid : Oid) (sid : Nat → Oid) : DB × Except Err Order :=
  if user.role = .customer then
    match createTx db dto user oid sid with
    | .ok r => (r.1, .ok r.2)
    | .error e => (db, .error e)
  else (db, .error (.forbidden "Only customers can create orders"))

/-- `OrdersService.updateOrderStatus` (`setStatus`). No transaction is
used here, so every `save()` performed before a later throw stays
persisted: the first component is the observable state after the call,
also on error paths. The returned record is the parent order (`.inl`) or
the mutated sub-order (`.inr`). -/
def updateOrderStatus (db : DB) (id : Oid) (status : OrderStatus) (user : User) :
    DB × Except Err (Order ⊕ SubOrder) :=
  if db.orders.any (fun o => o._id == id) then
    match db.order? id with
    | none => (db, .error (.notFound ("Order " ++ id ++ " not found")))
    | some order =>
      if user.role = .vendor then
        (db, .error (.forbidden "Vendors can only update their own sub-orders"))
      else
        let orders₁ :=
          updateFirst (fun o => o._id == id)
            (fun o => { o with status := status }) db.orders
        let db₁ : DB := { db with orders := orders₁ }
        let db₂ : DB :=
          if 0 < order.subOrders.length then
            { db₁ with subOrders := db₁.subOrders.map (fun so =>
                if order.subOrders.contains so._id then { so with status := status }
                else so) }
          else db₁
        (db₂, .ok (.inl { order with status := status }))
  else
    match db.subOrder? id with
    | none => (db, .error (.notFound ("Sub-order " ++ id ++ " not found")))
    | some subOrder =>
      if user.role = .vendor ∧ subOrder.vendorId ≠ user._id then
        (db, .error (.forbidden "You can only update your own sub-orders"))
      else
        let subOrders₁ :=
          updateFirst (fun so => so._id == id)
            (fun so => { so with status := status }) db.subOrders
        let db₁ : DB := { db with subOrders := subOrders₁ }
        match db₁.order? subOrder.parentOrderId with
        | none =>
          (db₁, .error (.notFound ("Parent order not found for sub-order " ++ id)))
        | some parentOrder =>
          let allSubOrders :=
            db₁.subOrders.filter (fun so => so.parentOrderId == parentOrder._id)
          let adoptedOrders :=
            updateFirst (fun o => o._id == parentOrder._id)
              (fun o => { o with status := status }) db₁.orders
          let adopt : DB := { db₁ with orders := adoptedOrders }
          let db₂ : DB :=
            if allSubOrders.length = 1 then adopt
            else if 1 < allSubOrders.length then
              if allSubOrders.all (fun so => so.status == status) then adopt else db₁
            else db₁
          (db₂, .ok (.inr { subOrder with status := status }))

/-! ### Specification-side definitions

These translate wording of the specification, to be compared with what
the code computes. -/

/-- Σ price×quantity over a list of line items (the spec's sub-amount /
total-amount expression). -/
def itemsTotal (items : List OrderItem) : Int :=
  (items.map (fun i => i.price * i.quantity)).sum

/-- The spec's "preserving first-encountered vendor order": each value
of the input listed once, at the position of its first occurrence. -/
def firstOccurrences : List Oid → List Oid
  | [] => []
  | v :: vs => v :: firstOccurrences (vs.filter (fun w => w ≠ v))
termination_by l => l.length
decreasing_by
  simp only [List.length_cons]
  exact Nat.lt_succ_of_le (List.length_filter_le _ _)

/-- The requested ids that are "not found, or zero stock" (no product
record with that id has positive stock), in request order — the ids the
`ProductUnavailable` error must name. -/
def unavailableIds (db : DB) (ids : List Oid) : List Oid :=
  ids.filter (fun i => !(db.products.any (fun p => p._id == i && decide (0 < p.stock))))

/-! ### Concrete fixtures used by witnesses and counterexamples -/

/-- Product A: vendor V1, price 10, stock 5 (spec §8 end-to-end cart). -/
def exProductA : Product :=
  { _id := "A", name := "prodA", price := 10, stock := 5, category := "c", vendorId := "V1" }

/-- Product B: vendor V2, price 20, stock 1 (spec §8 end-to-end cart). -/
def exProductB : Product :=
  { _id := "B", name := "prodB", price := 20, stock := 1, category := "c", vendorId := "V2" }

/-- Catalog-only database for placement scenarios. -/
def exDb : DB := { products := [exProductA, exProductB], orders := [], subOrders := [] }

/-- Same catalog but product B fully out of stock (spec §8 insufficient
stock scenario). -/
def exDbBOut : DB :=
  { products := [exProductA, { exProductB with stock := 0 }], orders := [], subOrders := [] }

/-- The spec §8 cart: two of A, one of B. -/
def exCart : List OrderItemDto := [⟨"A", 2⟩, ⟨"B", 1⟩]

def exCustomer : User := { _id := "U", role := .customer }

def exAdmin : User := { _id := "ADM", role := .admin }

/-- The vendor owning sub-order S3 below. -/
def exVendor2 : User := { _id := "V2", role := .vendor }

/-- Fresh sub-order id supply. -/
def exSid : Nat → Oid := fun k => match k with | 0 => "S0" | 1 => "S1" | _ => "Sx"

/-- Parent order O1 with three sub-orders (spec §8 reconciliation
scenario: states {shipped, shipped, pending}). -/
def exOrderO1 : Order :=
  { _id := "O1", customerId := "U", items := [], totalAmount := 60,
    status := .pending, subOrders := ["S1", "S2", "S3"] }

def exSub1 : SubOrder :=
  { _id := "S1", parentOrderId := "O1", vendorId := "V1", items := [],
    amount := 20, status := .shipped }

def exSub2 : SubOrder :=
  { _id := "S2", parentOrderId := "O1", vendorId := "V1", items := [],
    amount := 20, status := .shipped }

def exSub3 : SubOrder :=
  { _id := "S3", parentOrderId := "O1", vendorId := "V2", items := [],
    amount := 20, status := .pending }

/-- An orphaned sub-order: its `parentOrderId` resolves to no order. -/
def exSubOrphan : SubOrder :=
  { _id := "SX", parentOrderId := "NOPE", vendorId := "V2", items := [],
    amount := 5, status := .pending }

/-- Database for the status-reconciliation scenarios. -/
def exDbStatus : DB :=
  { products := [], orders := [exOrderO1],
    subOrders := [exSub1, exSub2, exSub3, exSubOrphan] }

/-! ## Helper lemmas -/

theorem updateFirst_decomp {α : Type} {p : α → Bool} (f : α → α) {l : List α} {x : α}
    (h : l.find? p = some x) :
    ∃ l₁ l₂, l = l₁ ++ x :: l₂ ∧ (∀ a ∈ l₁, p a = false) ∧
      updateFirst p f l = l₁ ++ f x :: l₂ := by
  induction l with
  | nil => simp at h
  | cons a l ih =>
    by_cases hpa : p a
    · rw [List.find?_cons_of_pos _ hpa] at h
      injection h with h
      subst h
      exact ⟨[], l, rfl, by simp, by simp [updateFirst, hpa]⟩
    · rw [List.find?_cons_of_neg _ (by simpa using hpa)] at h
      obtain ⟨l₁, l₂, hl, hfail, hupd⟩ := ih h
      refine ⟨a :: l₁, l₂, by simp [hl], ?_, ?_⟩
      · intro b hb
        rcases List.mem_cons.mp hb with rfl | hb
        · simpa using hpa
        · exact hfail b hb
      · simp [updateFirst, hpa, hupd]

theorem find?_updateFirst_self {α : Type} {p : α → Bool} {f : α → α} {l : List α} {x : α}
    (h : l.find? p = some x) (hfx : p (f x) = true) :
    (updateFirst p f l).find? p = some (f x) := by
  induction l with
  | nil => simp at h
  | cons a l ih =>
    by_cases hpa : p a
    · rw [List.find?_cons_of_pos _ hpa] at h
      injection h with h
      subst h
      simp [updateFirst, hpa, List.find?_cons_of_pos _ hfx]
    · rw [List.find?_cons_of_neg _ (by simpa using hpa)] at h
      simp only [updateFirst, if_neg hpa]
      rw [List.find?_cons_of_neg _ (by simpa using hpa)]
      exact ih h

theorem find?_and_of_cond {α : Type} {A C : α → Bool} {l : List α} {x : α}
    (h : l.find? A = some x) (hC : C x = true) :
    l.find? (fun a => A a && C a) = some x := by
  induction l with
  | nil => simp at h
  | cons a l ih =>
    by_cases hA : A a
    · rw [List.find?_cons_of_pos _ hA] at h
      injection h with h
      subst h
      exact List.find?_cons_of_pos _ (by simp [hA, hC])
    · rw [List.find?_cons_of_neg _ (by simpa using hA)] at h
      rw [List.find?_cons_of_neg _ (by simp [hA])]
      exact ih h

theorem find?_updateFirst_and {α : Type} {A C : α → Bool} {f : α → α} {l : List α} {x : α}
    (h : l.find? A = some x) (hC : C x = true) (hfx : A (f x) = true) :
    (updateFirst (fun a => A a && C a) f l).find? A = some (f x) := by
  induction l with
  | nil => simp at h
  | cons a l ih =>
    by_cases hA : A a
    · rw [List.find?_cons_of_pos _ hA] at h
      injection h with h
      subst h
      simp only [updateFirst]
      rw [if_pos (by simp [hA, hC])]
      exact List.find?_cons_of_pos _ hfx
    · rw [List.find?_cons_of_neg _ (by simpa using hA)] at h
      simp only [updateFirst]
      rw [if_neg (by simp [hA])]
      rw [List.find?_cons_of_neg _ (by simpa using hA)]
      exact ih h

theorem find?_and_eq_none_of_nodup {α : Type} {key : α → Oid} {C : α → Bool}
    {l : List α} {i : Oid} {x : α}
    (hnd : (l.map key).Nodup)
    (h : l.find? (fun a => key a == i) = some x) (hC : C x = false) :
    l.find? (fun a => key a == i && C a) = none := by
  induction l with
  | nil => simp at h
  | cons a l ih =>
    rw [List.map_cons, List.nodup_cons] at hnd
    by_cases hA : (key a == i) = true
    · rw [List.find?_cons_of_pos (p := fun b => key b == i) _ hA] at h
      injection h with h
      subst h
      rw [List.find?_cons_of_neg (p := fun b => key b == i && C b) _ (by simp [hC])]
      apply List.find?_eq_none.mpr
      intro b hb
      simp only [Bool.and_eq_true, beq_iff_eq, not_and]
      intro hbk
      exfalso
      apply hnd.1
      rw [beq_iff_eq] at hA
      rw [hA, ← hbk]
      exact List.mem_map_of_mem key hb
    · rw [List.find?_cons_of_neg (p := fun b => key b == i) _ (by simpa using hA)] at h
      rw [List.find?_cons_of_neg (p := fun b => key b == i && C b) _ (by simp [hA])]
      exact ih hnd.2 h

end VendorOrder

namespace VendorOrder

/-! ## C1: atomicity of failed order placement -/

/-- C1: whenever `OrdersService.create` returns an error — from product
validation, sub-order creation, or stock reservation — the observable
state after the call is exactly the state before it: no order, sub-order
or stock decrement persists (the transaction is aborted). -/
theorem create_error_is_atomic
    (db : DB) (dto : List OrderItemDto) (user : User) (oid : Oid) (sid : Nat → Oid)
    (e : Err) (h : (create db dto user oid sid).2 = .error e) :
    (create db dto user oid sid).1 = db := by
  by_cases hr : user.role = .customer
  · cases htx : createTx db dto user oid sid with
    | ok r =>
      have hc : create db dto user oid sid = (r.1, .ok r.2) := by
        unfold create; rw [if_pos hr, htx]
      rw [hc] at h
      exact absurd h (by simp)
    | error e' =>
      have hc : create db dto user oid sid = (db, .error e') := by
        unfold create; rw [if_pos hr, htx]
      rw [hc]
  · have hc : create db dto user oid sid =
        (db, .error (.forbidden "Only customers can create orders")) := by
      unfold create; rw [if_neg hr]
    rw [hc]

/-- Witness for C1: the spec §8 insufficient-stock scenario (product B
out of stock) errors, and the database afterwards equals the one
before. -/
theorem create_error_is_atomic_witness :
    (create exDbBOut exCart exCustomer "O1" exSid).2 =
        .error (.productsNotFound ["B"]) ∧
      (create exDbBOut exCart exCustomer "O1" exSid).1 = exDbBOut :=
  ⟨by decide,
   create_error_is_atomic exDbBOut exCart exCustomer "O1" exSid
     (.productsNotFound ["B"]) (by decide)⟩

end VendorOrder

namespace VendorOrder

/-! ## C9: the Ledger's conditional decrement -/

/-- C9: `ProductsService.decrementStock` with quantity `q` on stock `s`
succeeds exactly when the product exists with `s ≥ q`, in which case the
stored stock becomes `s − q` (which is never negative); when the product
is absent or `s < q` it fails — and, the operation being a single
conditional `findOneAndUpdate`, a failing call updates no document, so
the stock is unchanged. -/
theorem decrementStock_conditional
    (db : DB) (pid : Oid) (q : Int)
    (hnd : (db.products.map (·._id)).Nodup) :
    (∀ p, db.product? pid = some p →
      (q ≤ p.stock →
        ∃ db', decrementStock db pid q = .ok (db', { p with stock := p.stock - q }) ∧
          db'.product? pid = some { p with stock := p.stock - q } ∧
          0 ≤ p.stock - q) ∧
      (p.stock < q → decrementStock db pid q = .error (.decrementFailed pid))) ∧
    (db.product? pid = none →
      decrementStock db pid q = .error (.decrementFailed pid)) := by
  constructor
  · intro p hp
    unfold DB.product? at hp
    constructor
    · intro hq
      have hfind : db.products.find?
          (fun a => a._id == pid && decide (q ≤ a.stock)) = some p :=
        find?_and_of_cond hp (by simpa using hq)
      have hfx : (({ p with stock := p.stock - q } : Product)._id == pid) = true := by
        have := List.find?_some hp
        simpa using this
      have hupd : decrementStock db pid q =
          .ok (⟨updateFirst (fun a => a._id == pid && decide (q ≤ a.stock))
                  (fun a => { a with stock := a.stock - q }) db.products,
                db.orders, db.subOrders⟩,
               { p with stock := p.stock - q }) := by
        unfold decrementStock
        rw [hfind]
      refine ⟨_, hupd, ?_, by omega⟩
      unfold DB.product?
      exact find?_updateFirst_and hp (by simpa using hq) hfx
    · intro hq
      have hfind : db.products.find?
          (fun a => a._id == pid && decide (q ≤ a.stock)) = none :=
        find?_and_eq_none_of_nodup hnd hp (by simpa using hq)
      unfold decrementStock
      rw [hfind]
  · intro hp
    unfold DB.product? at hp
    have hfind : db.products.find?
        (fun a => a._id == pid && decide (q ≤ a.stock)) = none := by
      apply List.find?_eq_none.mpr
      intro b hb
      have := List.find?_eq_none.mp hp b hb
      simp only [Bool.and_eq_true, not_and]
      intro hk
      exact absurd hk this
    unfold decrementStock
    rw [hfind]

/-- Witness for C9: decrementing product A (stock 5) by 2 succeeds and
leaves stock 3; decrementing product B (stock 1) by 2 fails. -/
theorem decrementStock_conditional_witness :
    (∃ db', decrementStock exDb "A" 2 =
        .ok (db', { exProductA with stock := exProductA.stock - 2 }) ∧
      db'.product? "A" = some { exProductA with stock := exProductA.stock - 2 } ∧
      0 ≤ exProductA.stock - 2) ∧
    decrementStock exDb "B" 2 = .error (.decrementFailed "B") :=
  ⟨(((decrementStock_conditional exDb "A" 2 (by decide)).1 exProductA
      (by decide)).1 (by decide)),
   (((decrementStock_conditional exDb "B" 2 (by decide)).1 exProductB
      (by decide)).2 (by decide))⟩

end VendorOrder

namespace VendorOrder

/-! ## C6: is `Product.stock` written only through the conditional decrement? -/

/-- C6 counterexample: product A has stock 5; the exposed product-update
operation (`PATCH /products/:id` → `ProductsService.update`), called by
an admin with a dto carrying `stock: 99`, leaves A with stock 99 — the
stock was written by a code path other than `decrementStock`, so the
claim that no other exposed operation can change stock is false. -/
theorem productsUpdate_writes_stock_cex :
    (exDb.product? "A").map (·.stock) = some 5 ∧
    (productsUpdate exDb "A" ⟨none, none, some 99, none⟩ exAdmin).map
        (fun r => (r.1.product? "A").map (·.stock)) = .ok (some 99) := by
  decide

/-- C6 (amended): `Product.stock` is not written exclusively through the
Ledger's conditional decrement — `ProductsService.update`, exposed to
the admin or the owning vendor, overwrites a product's stock with
whatever value the update dto carries. -/
theorem productsUpdate_sets_stock
    (db : DB) (id : Oid) (dto : UpdateProductDto) (user : User) (p : Product) (s : Int)
    (hp : db.product? id = some p)
    (hstock : dto.stock = some s)
    (hauth : user.role = .admin ∨ (user.role = .vendor ∧ p.vendorId = user._id)) :
    ∃ db', productsUpdate db id dto user = .ok (db', applyProductUpdate dto p) ∧
      (db'.product? id).map (·.stock) = some s := by
  have hok : productsUpdate db id dto user =
      .ok (⟨updateFirst (fun q => q._id == id) (applyProductUpdate dto) db.products,
            db.orders, db.subOrders⟩,
           applyProductUpdate dto p) := by
    have h1 : ¬ (user.role = UserRole.vendor ∧ p.vendorId ≠ user._id) := by
      rcases hauth with h | h
      · rintro ⟨hv, -⟩
        rw [h] at hv
        exact absurd hv (by decide)
      · rintro ⟨-, hne⟩
        exact hne h.2
    have h2 : ¬ (user.role ≠ UserRole.admin ∧ user.role ≠ UserRole.vendor) := by
      rcases hauth with h | h
      · rintro ⟨ha, -⟩
        exact ha h
      · rintro ⟨-, hv⟩
        exact hv h.1
    unfold productsUpdate
    rw [hp]
    simp only [if_neg h1, if_neg h2]
  refine ⟨_, hok, ?_⟩
  have hfx : ((applyProductUpdate dto p)._id == id) = true := by
    have := List.find?_some hp
    simpa [applyProductUpdate] using this
  have := find?_updateFirst_self (f := applyProductUpdate dto) hp hfx
  unfold DB.product?
  rw [this]
  simp [applyProductUpdate, hstock]

/-- Witness for C6's amended statement: the admin update with
`stock: 99` goes through on product A. -/
theorem productsUpdate_sets_stock_witness :
    ∃ db', productsUpdate exDb "A" ⟨none, none, some 99, none⟩ exAdmin =
        .ok (db', applyProductUpdate ⟨none, none, some 99, none⟩ exProductA) ∧
      (db'.product? "A").map (·.stock) = some 99 :=
  productsUpdate_sets_stock exDb "A" ⟨none, none, some 99, none⟩ exAdmin
    exProductA 99 (by decide) (by decide) (.inl (by decide))

end VendorOrder

namespace VendorOrder

/-! ## C10: the sub-order mutation survives a missing parent -/

/-- C10: when `updateOrderStatus` targets a sub-order whose
`parentOrderId` resolves to no order, the call returns `NotFound` — yet
the sub-order's status has already been saved: reconciliation runs
outside any transaction, so the child mutation is not rolled back. -/
theorem updateOrderStatus_orphan_child_mutation_persists
    (db : DB) (id : Oid) (status : OrderStatus) (user : User) (so : SubOrder)
    (hnp : ∀ o ∈ db.orders, o._id ≠ id)
    (hso : db.subOrder? id = some so)
    (hguard : ¬ (user.role = .vendor ∧ so.vendorId ≠ user._id))
    (hparent : db.order? so.parentOrderId = none) :
    (updateOrderStatus db id status user).2 =
        .error (.notFound ("Parent order not found for sub-order " ++ id)) ∧
      (updateOrderStatus db id status user).1.subOrder? id =
        some { so with status := status } := by
  have hany : db.orders.any (fun o => o._id == id) = false := by
    rw [List.any_eq_false]
    intro o ho
    simpa using hnp o ho
  have hparent' : db.orders.find? (fun o => o._id == so.parentOrderId) = none := hparent
  have hres : updateOrderStatus db id status user =
      (⟨db.products, db.orders,
        updateFirst (fun s => s._id == id)
          (fun s => { s with status := status }) db.subOrders⟩,
       .error (.notFound ("Parent order not found for sub-order " ++ id))) := by
    unfold updateOrderStatus
    simp only [hany, Bool.false_eq_true, if_false, hso, DB.order?, hguard, hparent',
      if_neg hguard]
  rw [hres]
  refine ⟨rfl, ?_⟩
  have hfx : (({ so with status := status } : SubOrder)._id == id) = true := by
    have := List.find?_some hso
    simpa using this
  exact find?_updateFirst_self hso hfx

/-- Witness for C10: setting the orphaned sub-order SX (whose parent
`NOPE` does not exist) to `shipped` returns `NotFound`, while SX's
stored status is now `shipped`. -/
theorem updateOrderStatus_orphan_witness :
    (updateOrderStatus exDbStatus "SX" .shipped exAdmin).2 =
        .error (.notFound ("Parent order not found for sub-order " ++ "SX")) ∧
      (updateOrderStatus exDbStatus "SX" .shipped exAdmin).1.subOrder? "SX" =
        some { exSubOrphan with status := .shipped } :=
  updateOrderStatus_orphan_child_mutation_persists exDbStatus "SX" .shipped exAdmin
    exSubOrphan (by decide) (by decide) (by decide) (by decide)

end VendorOrder

namespace VendorOrder

/-! ## C4: setting status on a parent order -/

/-- C4: when `updateOrderStatus` targets a parent order, a vendor caller
gets `Forbidden` with no record changed, while an admin caller sets the
parent's status and force-sets every sub-order of that parent to the
same status, whatever their previous statuses; the parent record is
returned. -/
theorem updateOrderStatus_parent_spec
    (db : DB) (id : Oid) (status : OrderStatus) (user : User) (order : Order)
    (horder : db.order? id = some order)
    (hlink : ∀ so ∈ db.subOrders, so.parentOrderId = id ↔ so._id ∈ order.subOrders) :
    (user.role = .vendor →
      updateOrderStatus db id status user =
        (db, .error (.forbidden "Vendors can only update their own sub-orders"))) ∧
    (user.role = .admin →
      (updateOrderStatus db id status user).2 =
          .ok (.inl { order with status := status }) ∧
        (updateOrderStatus db id status user).1.order? id =
          some { order with status := status } ∧
        ∀ so ∈ (updateOrderStatus db id status user).1.subOrders,
          so.parentOrderId = id → so.status = status) := by
  have horder' : db.orders.find? (fun o => o._id == id) = some order := horder
  have hpa : (order._id == id) = true := by
    have h2 := List.find?_some horder'
    simpa using h2
  have hany : db.orders.any (fun o => o._id == id) = true :=
    List.any_eq_true.mpr ⟨order, List.mem_of_find?_eq_some horder', hpa⟩
  constructor
  · intro hrole
    unfold updateOrderStatus
    simp only [hany, if_true, horder, if_pos hrole]
  · intro hrole
    have hnv : ¬ user.role = UserRole.vendor := by rw [hrole]; decide
    have hres : updateOrderStatus db id status user =
        ((if 0 < order.subOrders.length then
            (⟨db.products,
              updateFirst (fun o => o._id == id)
                (fun o => { o with status := status }) db.orders,
              db.subOrders.map (fun so =>
                if order.subOrders.contains so._id then { so with status := status }
                else so)⟩ : DB)
          else
            ⟨db.products,
              updateFirst (fun o => o._id == id)
                (fun o => { o with status := status }) db.orders,
              db.subOrders⟩),
         .ok (.inl { order with status := status })) := by
      unfold updateOrderStatus
      simp only [hany, if_true, horder, if_neg hnv]
    have hfx : (({ order with status := status } : Order)._id == id) = true := by
      have := List.find?_some horder'
      simpa using this
    refine ⟨?_, ?_, ?_⟩
    · rw [hres]
    · rw [hres]
      unfold DB.order?
      split
      · exact find?_updateFirst_self horder' hfx
      · exact find?_updateFirst_self horder' hfx
    · rw [hres]
      split
      next hlen =>
        intro so hso hpid
        simp only [List.mem_map] at hso
        obtain ⟨so₀, hso₀, rfl⟩ := hso
        by_cases hc : order.subOrders.contains so₀._id
        · rw [if_pos hc]
        · simp only [hc, if_false, Bool.false_eq_true] at hpid ⊢
          exfalso
          apply hc
          have hmem : so₀._id ∈ order.subOrders := by
            have := (hlink so₀ hso₀).mp
            apply this
            simpa [hc] using hpid
          simpa [List.contains_eq_any_beq, List.any_eq_true] using hmem
      next hlen =>
        intro so hso hpid
        exfalso
        have hmem : so._id ∈ order.subOrders := (hlink so hso).mp hpid
        have : order.subOrders = [] := by
          cases h : order.subOrders with
          | nil => rfl
          | cons a l => rw [h] at hlen; simp at hlen
        rw [this] at hmem
        simp at hmem

/-- Witness for C4: on parent O1, the vendor caller is refused with the
state unchanged; the admin caller sets O1 and all of S1, S2, S3 to
`delivered`. -/
theorem updateOrderStatus_parent_spec_witness :
    (updateOrderStatus exDbStatus "O1" .delivered exVendor2 =
      (exDbStatus, .error (.forbidden "Vendors can only update their own sub-orders"))) ∧
    ((updateOrderStatus exDbStatus "O1" .delivered exAdmin).2 =
        .ok (.inl { exOrderO1 with status := .delivered }) ∧
      (updateOrderStatus exDbStatus "O1" .delivered exAdmin).1.order? "O1" =
        some { exOrderO1 with status := .delivered } ∧
      ∀ so ∈ (updateOrderStatus exDbStatus "O1" .delivered exAdmin).1.subOrders,
        so.parentOrderId = "O1" → so.status = .delivered) :=
  ⟨(updateOrderStatus_parent_spec exDbStatus "O1" .delivered exVendor2 exOrderO1
      (by decide) (by decide)).1 rfl,
   (updateOrderStatus_parent_spec exDbStatus "O1" .delivered exAdmin exOrderO1
      (by decide) (by decide)).2 rfl⟩

end VendorOrder

namespace VendorOrder

/-! ## C3: setting status on a sub-order, with parent reconciliation -/

/-- C3: an authorized `updateOrderStatus` call on a sub-order (admin, or
the vendor owning it) sets that sub-order's status; then, among the
sibling sub-orders of the same parent, a single sibling makes the parent
adopt the status unconditionally, several siblings make it adopt the
status exactly when all of them now carry it, and otherwise the parent
is left unchanged; the mutated sub-order — not the parent — is
returned. -/
theorem updateOrderStatus_suborder_spec
    (db : DB) (id : Oid) (status : OrderStatus) (user : User)
    (so : SubOrder) (parent : Order)
    (hnp : ∀ o ∈ db.orders, o._id ≠ id)
    (hso : db.subOrder? id = some so)
    (hauth : user.role = .admin ∨ (user.role = .vendor ∧ so.vendorId = user._id))
    (hparent : db.order? so.parentOrderId = some parent) :
    (updateOrderStatus db id status user).2 = .ok (.inr { so with status := status }) ∧
    (updateOrderStatus db id status user).1.subOrder? id =
      some { so with status := status } ∧
    (((updateOrderStatus db id status user).1.subOrders.filter
        (fun s => s.parentOrderId == so.parentOrderId)).length = 1 →
      (updateOrderStatus db id status user).1.order? so.parentOrderId =
        some { parent with status := status }) ∧
    (1 < ((updateOrderStatus db id status user).1.subOrders.filter
        (fun s => s.parentOrderId == so.parentOrderId)).length →
      (((updateOrderStatus db id status user).1.subOrders.filter
          (fun s => s.parentOrderId == so.parentOrderId)).all
            (fun s => s.status == status) = true →
        (updateOrderStatus db id status user).1.order? so.parentOrderId =
          some { parent with status := status }) ∧
      (((updateOrderStatus db id status user).1.subOrders.filter
          (fun s => s.parentOrderId == so.parentOrderId)).all
            (fun s => s.status == status) = false →
        (updateOrderStatus db id status user).1.order? so.parentOrderId =
          some parent)) := by
  have hany : db.orders.any (fun o => o._id == id) = false := by
    rw [List.any_eq_false]
    intro o ho
    simpa using hnp o ho
  have hguard : ¬ (user.role = .vendor ∧ so.vendorId ≠ user._id) := by
    rcases hauth with h | h
    · rintro ⟨hv, -⟩
      rw [h] at hv
      exact absurd hv (by decide)
    · rintro ⟨-, hne⟩
      exact hne h.2
  have hso' : db.subOrders.find? (fun s => s._id == id) = some so := hso
  have hparent' : db.orders.find? (fun o => o._id == so.parentOrderId) = some parent :=
    hparent
  have hpid : parent._id = so.parentOrderId := by
    have h2 := List.find?_some hparent'
    simpa using h2
  have hparentP : db.orders.find? (fun o => o._id == parent._id) = some parent := by
    rw [hpid]
    exact hparent'
  have hres : updateOrderStatus db id status user =
      ((if ((updateFirst (fun s => s._id == id)
              (fun s => { s with status := status }) db.subOrders).filter
                (fun s => s.parentOrderId == parent._id)).length = 1 then
          (⟨db.products,
            updateFirst (fun o => o._id == parent._id)
              (fun o => { o with status := status }) db.orders,
            updateFirst (fun s => s._id == id)
              (fun s => { s with status := status }) db.subOrders⟩ : DB)
        else if 1 < ((updateFirst (fun s => s._id == id)
              (fun s => { s with status := status }) db.subOrders).filter
                (fun s => s.parentOrderId == parent._id)).length then
          (if ((updateFirst (fun s => s._id == id)
                (fun s => { s with status := status }) db.subOrders).filter
                  (fun s => s.parentOrderId == parent._id)).all
                    (fun s => s.status == status) then
            (⟨db.products,
              updateFirst (fun o => o._id == parent._id)
                (fun o => { o with status := status }) db.orders,
              updateFirst (fun s => s._id == id)
                (fun s => { s with status := status }) db.subOrders⟩ : DB)
          else
            (⟨db.products, db.orders,
              updateFirst (fun s => s._id == id)
                (fun s => { s with status := status }) db.subOrders⟩ : DB))
        else
          (⟨db.products, db.orders,
            updateFirst (fun s => s._id == id)
              (fun s => { s with status := status }) db.subOrders⟩ : DB)),
       .ok (.inr { so with status := status })) := by
    unfold updateOrderStatus
    simp only [hany, Bool.false_eq_true, if_false, hso, if_neg hguard, DB.order?,
      hparent']
  have h1 : (updateOrderStatus db id status user).1.subOrders =
      updateFirst (fun s => s._id == id)
        (fun s => { s with status := status }) db.subOrders := by
    rw [hres]
    dsimp only
    split
    · rfl
    · split
      · split <;> rfl
      · rfl
  have hfx : (({ so with status := status } : SubOrder)._id == id) = true := by
    have h2 := List.find?_some hso'
    simpa using h2
  have hfxP : (({ parent with status := status } : Order)._id == parent._id) = true := by
    simp
  refine ⟨?_, ?_, ?_, ?_⟩
  · rw [hres]
  · show (updateOrderStatus db id status user).1.subOrders.find?
        (fun s => s._id == id) = some { so with status := status }
    rw [h1]
    exact find?_updateFirst_self hso' hfx
  · intro hlen
    rw [← hpid] at hlen ⊢
    rw [h1] at hlen
    rw [hres]
    show DB.order? _ parent._id = _
    dsimp only
    rw [if_pos hlen]
    show (updateFirst (fun o => o._id == parent._id)
        (fun o => { o with status := status }) db.orders).find?
          (fun o => o._id == parent._id) = some { parent with status := status }
    exact find?_updateFirst_self hparentP hfxP
  · intro hlen
    rw [← hpid] at hlen ⊢
    rw [h1] at hlen
    have hne : ¬ ((updateFirst (fun s => s._id == id)
        (fun s => { s with status := status }) db.subOrders).filter
          (fun s => s.parentOrderId == parent._id)).length = 1 := by
      omega
    constructor
    · intro hall
      rw [h1] at hall
      rw [hres]
      show DB.order? _ parent._id = _
      dsimp only
      rw [if_neg hne, if_pos hlen, if_pos hall]
      show (updateFirst (fun o => o._id == parent._id)
          (fun o => { o with status := status }) db.orders).find?
            (fun o => o._id == parent._id) = some { parent with status := status }
      exact find?_updateFirst_self hparentP hfxP
    · intro hall
      rw [h1] at hall
      rw [hres]
      show DB.order? _ parent._id = _
      dsimp only
      rw [if_neg hne, if_pos hlen, if_neg (by simp [hall])]
      exact hparentP

/-- Witness for C3: the spec §8 scenario — parent O1 has sub-orders with
statuses {shipped, shipped, pending}; the owning vendor sets S3 to
`shipped`, S3 is returned mutated, and the parent adopts `shipped`. -/
theorem updateOrderStatus_suborder_spec_witness :
    (updateOrderStatus exDbStatus "S3" .shipped exVendor2).2 =
        .ok (.inr { exSub3 with status := .shipped }) ∧
      (updateOrderStatus exDbStatus "S3" .shipped exVendor2).1.subOrder? "S3" =
        some { exSub3 with status := .shipped } ∧
      1 < ((updateOrderStatus exDbStatus "S3" .shipped exVendor2).1.subOrders.filter
          (fun s => s.parentOrderId == exSub3.parentOrderId)).length ∧
      ((updateOrderStatus exDbStatus "S3" .shipped exVendor2).1.subOrders.filter
          (fun s => s.parentOrderId == exSub3.parentOrderId)).all
            (fun s => s.status == OrderStatus.shipped) = true ∧
      (updateOrderStatus exDbStatus "S3" .shipped exVendor2).1.order?
          exSub3.parentOrderId = some { exOrderO1 with status := .shipped } := by
  have h := updateOrderStatus_suborder_spec exDbStatus "S3" .shipped exVendor2
    exSub3 exOrderO1 (by decide) (by decide) (.inr ⟨by decide, by decide⟩) (by decide)
  exact ⟨h.1, h.2.1, by decide, by decide, (h.2.2.2 (by decide)).1 (by decide)⟩

end VendorOrder

namespace VendorOrder

/-! ## Helper lemmas about the item-processing loop of `create` -/

theorem foldl_add_eq_sum {α : Type} (f : α → Int) :
    ∀ (l : List α) (s : Int),
      l.foldl (fun acc a => acc + f a) s = s + (l.map f).sum
  | [], s => by simp
  | a :: l, s => by
    simp only [List.foldl_cons, List.map_cons, List.sum_cons]
    rw [foldl_add_eq_sum f l (s + f a)]
    ring

theorem subOrderAmount_eq_itemsTotal (items : List OrderItem) :
    subOrderAmount items = itemsTotal items := by
  unfold subOrderAmount itemsTotal
  simpa using foldl_add_eq_sum (fun i => i.price * i.quantity) items 0

theorem itemsTotal_append_singleton (its : List OrderItem) (i : OrderItem) :
    itemsTotal (its ++ [i]) = itemsTotal its + i.price * i.quantity := by
  simp [itemsTotal]

theorem pushGroup_sum (v : Oid) (i : OrderItem) :
    ∀ gs : List (Oid × List OrderItem),
      ((pushGroup v i gs).map (fun g => itemsTotal g.2)).sum =
        ((gs.map (fun g => itemsTotal g.2)).sum) + i.price * i.quantity
  | [] => by simp [pushGroup, itemsTotal]
  | g :: rest => by
    unfold pushGroup
    by_cases hg : (g.1 == v) = true
    · rw [if_pos hg]
      simp only [List.map_cons, List.sum_cons]
      rw [itemsTotal_append_singleton]
      ring
    · rw [if_neg hg]
      simp only [List.map_cons, List.sum_cons]
      rw [pushGroup_sum v i rest]
      ring

theorem pushGroup_flatten_perm (v : Oid) (i : OrderItem) :
    ∀ gs : List (Oid × List OrderItem),
      ((pushGroup v i gs).map (fun g => g.2)).flatten.Perm
        ((gs.map (fun g => g.2)).flatten ++ [i])
  | [] => by simp [pushGroup]
  | g :: rest => by
    unfold pushGroup
    by_cases hg : (g.1 == v) = true
    · rw [if_pos hg]
      simp only [List.map_cons, List.flatten_cons]
      rw [List.append_assoc g.2 [i], List.append_assoc g.2]
      exact List.Perm.append_left g.2 List.perm_append_comm
    · rw [if_neg hg]
      simp only [List.map_cons, List.flatten_cons]
      rw [List.append_assoc g.2]
      exact List.Perm.append_left g.2 (pushGroup_flatten_perm v i rest)

theorem pushGroup_keys (v : Oid) (i : OrderItem) :
    ∀ gs : List (Oid × List OrderItem),
      (pushGroup v i gs).map (fun g => g.1) =
        if v ∈ gs.map (fun g => g.1) then gs.map (fun g => g.1)
        else gs.map (fun g => g.1) ++ [v]
  | [] => by simp [pushGroup]
  | g :: rest => by
    unfold pushGroup
    by_cases hg : (g.1 == v) = true
    · rw [if_pos hg]
      have hgv : g.1 = v := by simpa using hg
      have hv : v ∈ (g :: rest).map (fun g => g.1) := by
        simp only [List.map_cons, List.mem_cons]
        exact .inl hgv.symm
      rw [if_pos hv]
      simp
    · rw [if_neg hg]
      have hne : ¬ v = g.1 := by
        intro h
        exact hg (by simp [h])
      simp only [List.map_cons]
      rw [pushGroup_keys v i rest]
      by_cases hv : v ∈ rest.map (fun g => g.1)
      · rw [if_pos hv, if_pos (by simp [hv])]
      · rw [if_neg hv, if_neg (by simp [hne, hv])]
        simp

theorem pushGroup_vendors (v : Oid) (i : OrderItem) (hi : i.vendorId = v) :
    ∀ gs : List (Oid × List OrderItem),
      (∀ g ∈ gs, ∀ x ∈ g.2, x.vendorId = g.1) →
      ∀ g ∈ pushGroup v i gs, ∀ x ∈ g.2, x.vendorId = g.1
  | [] => by
    intro _ g hg x hx
    simp only [pushGroup, List.mem_singleton] at hg
    subst hg
    simp only [List.mem_singleton] at hx
    subst hx
    exact hi
  | g₀ :: rest => by
    intro hinv g hg x hx
    unfold pushGroup at hg
    by_cases hcase : (g₀.1 == v) = true
    · rw [if_pos hcase] at hg
      rcases List.mem_cons.mp hg with rfl | hgr
      · rcases List.mem_append.mp hx with hx | hx
        · exact hinv g₀ (List.mem_cons_self _ _) x hx
        · simp only [List.mem_singleton] at hx
          subst hx
          rw [hi]
          have hgv : g₀.1 = v := by simpa using hcase
          exact hgv.symm
      · exact hinv g (List.mem_cons_of_mem _ hgr) x hx
    · rw [if_neg hcase] at hg
      rcases List.mem_cons.mp hg with rfl | hgr
      · exact hinv g (List.mem_cons_self _ _) x hx
      · exact pushGroup_vendors v i hi rest
          (fun g' hg' => hinv g' (List.mem_cons_of_mem _ hg')) g hgr x hx

end VendorOrder

namespace VendorOrder

theorem mem_firstOccurrences (w : Oid) : ∀ (l : List Oid),
    w ∈ firstOccurrences l ↔ w ∈ l := by
  intro l
  induction l using firstOccurrences.induct with
  | case1 => simp [firstOccurrences]
  | case2 v vs ih =>
    simp only [firstOccurrences, List.mem_cons, ih, List.mem_filter]
    by_cases hw : w = v
    · simp [hw]
    · simp [hw]

theorem firstOccurrences_snoc (v : Oid) : ∀ (l : List Oid),
    firstOccurrences (l ++ [v]) =
      if v ∈ l then firstOccurrences l else firstOccurrences l ++ [v] := by
  intro l
  induction l using firstOccurrences.induct with
  | case1 => simp [firstOccurrences]
  | case2 w vs ih =>
    rw [List.cons_append]
    simp only [firstOccurrences, List.filter_append]
    by_cases hvw : v = w
    · subst hvw
      have hemp : List.filter (fun x => decide (x ≠ v)) [v] = [] := by simp
      rw [hemp, List.append_nil]
      rw [if_pos (List.mem_cons_self v vs)]
    · have hone : List.filter (fun x => decide (x ≠ w)) [v] = [v] := by simp [hvw]
      rw [hone, ih]
      by_cases hv : v ∈ vs
      · rw [if_pos (by simp [List.mem_filter, hv, hvw]),
          if_pos (List.mem_cons_of_mem w hv)]
      · rw [if_neg (by simp [List.mem_filter, hv]),
          if_neg (by simp [List.mem_cons, hv, hvw])]
        simp

end VendorOrder

namespace VendorOrder

theorem foldl_stepItem_total (products : List Product) :
    ∀ (items : List OrderItemDto) (acc : BuildAcc),
      acc.totalAmount = ((acc.vendorItems.map (fun g => itemsTotal g.2)).sum) →
      (items.foldl (stepItem products) acc).totalAmount =
        (((items.foldl (stepItem products) acc).vendorItems.map
            (fun g => itemsTotal g.2)).sum)
  | [], acc, h => h
  | it :: rest, acc, h => by
    simp only [List.foldl_cons]
    apply foldl_stepItem_total products rest
    unfold stepItem
    cases hfind : productMapGet products it.productId with
    | none => exact h
    | some product =>
      simp only
      rw [pushGroup_sum, h]

theorem foldl_stepItem_flatten_perm (products : List Product) :
    ∀ (items : List OrderItemDto) (acc : BuildAcc),
      ((acc.vendorItems.map (fun g => g.2)).flatten).Perm acc.orderItems →
      (((items.foldl (stepItem products) acc).vendorItems.map
          (fun g => g.2)).flatten).Perm
        (items.foldl (stepItem products) acc).orderItems
  | [], acc, h => h
  | it :: rest, acc, h => by
    simp only [List.foldl_cons]
    apply foldl_stepItem_flatten_perm products rest
    unfold stepItem
    cases hfind : productMapGet products it.productId with
    | none => exact h
    | some product =>
      simp only
      exact (pushGroup_flatten_perm _ _ _).trans (h.append (List.Perm.refl _))

theorem foldl_stepItem_vendors (products : List Product) :
    ∀ (items : List OrderItemDto) (acc : BuildAcc),
      (∀ g ∈ acc.vendorItems, ∀ x ∈ g.2, x.vendorId = g.1) →
      ∀ g ∈ (items.foldl (stepItem products) acc).vendorItems,
        ∀ x ∈ g.2, x.vendorId = g.1
  | [], acc, h => h
  | it :: rest, acc, h => by
    simp only [List.foldl_cons]
    apply foldl_stepItem_vendors products rest
    unfold stepItem
    cases hfind : productMapGet products it.productId with
    | none => exact h
    | some product =>
      simp only
      exact pushGroup_vendors product.vendorId _ rfl acc.vendorItems h

theorem foldl_stepItem_keys (products : List Product) :
    ∀ (items : List OrderItemDto) (acc : BuildAcc),
      acc.vendorItems.map (fun g => g.1) =
        firstOccurrences (acc.orderItems.map (fun x => x.vendorId)) →
      (items.foldl (stepItem products) acc).vendorItems.map (fun g => g.1) =
        firstOccurrences
          (((items.foldl (stepItem products) acc).orderItems).map
            (fun x => x.vendorId))
  | [], acc, h => h
  | it :: rest, acc, h => by
    simp only [List.foldl_cons]
    apply foldl_stepItem_keys products rest
    unfold stepItem
    cases hfind : productMapGet products it.productId with
    | none => exact h
    | some product =>
      simp only
      rw [pushGroup_keys, List.map_append]
      simp only [List.map_cons, List.map_nil]
      rw [firstOccurrences_snoc, h]
      by_cases hv : product.vendorId ∈ acc.orderItems.map (fun x => x.vendorId)
      · rw [if_pos hv, if_pos (by rw [mem_firstOccurrences]; exact hv)]
      · rw [if_neg hv, if_neg (by rw [mem_firstOccurrences]; exact hv)]

theorem foldl_stepItem_items (products : List Product) :
    ∀ (items : List OrderItemDto) (acc : BuildAcc),
      (∀ it ∈ items, (productMapGet products it.productId).isSome = true) →
      ((items.foldl (stepItem products) acc).orderItems).map
          (fun x => (x.productId, x.quantity)) =
        (acc.orderItems.map (fun x => (x.productId, x.quantity))) ++
          items.map (fun d => (d.productId, d.quantity))
  | [], acc, _ => by simp
  | it :: rest, acc, h => by
    simp only [List.foldl_cons]
    have hit : (productMapGet products it.productId).isSome = true :=
      h it (List.mem_cons_self _ _)
    cases hfind : productMapGet products it.productId with
    | none => rw [hfind] at hit; simp at hit
    | some product =>
      rw [foldl_stepItem_items products rest _
        (fun d hd => h d (List.mem_cons_of_mem _ hd))]
      unfold stepItem
      rw [hfind]
      simp only [List.map_append, List.map_cons, List.map_nil]
      simp

end VendorOrder

namespace VendorOrder

theorem mkSubOrders_mem (parentId : Oid) (sid : Nat → Oid)
    (gs : List (Oid × List OrderItem)) :
    ∀ so ∈ mkSubOrders parentId sid gs,
      so.parentOrderId = parentId ∧ so.amount = subOrderAmount so.items ∧
        so.status = .pending := by
  intro so hso
  unfold mkSubOrders at hso
  simp only [List.mem_map] at hso
  obtain ⟨kg, _, rfl⟩ := hso
  exact ⟨rfl, rfl, rfl⟩

theorem mkSubOrders_map_amount (parentId : Oid) (sid : Nat → Oid)
    (gs : List (Oid × List OrderItem)) :
    (mkSubOrders parentId sid gs).map (fun so => so.amount) =
      gs.map (fun g => subOrderAmount g.2) := by
  unfold mkSubOrders
  rw [List.map_map]
  have h : ((fun so : SubOrder => so.amount) ∘ fun kg : Nat × (Oid × List OrderItem) =>
      ({ _id := sid kg.1, parentOrderId := parentId, vendorId := kg.2.1,
         items := kg.2.2, amount := subOrderAmount kg.2.2,
         status := .pending } : SubOrder)) =
      (fun g : Oid × List OrderItem => subOrderAmount g.2) ∘ Prod.snd := rfl
  rw [h, ← List.map_map, List.enum_map_snd]

theorem mkSubOrders_map_items (parentId : Oid) (sid : Nat → Oid)
    (gs : List (Oid × List OrderItem)) :
    (mkSubOrders parentId sid gs).map (fun so => so.items) =
      gs.map (fun g => g.2) := by
  unfold mkSubOrders
  rw [List.map_map]
  have h : ((fun so : SubOrder => so.items) ∘ fun kg : Nat × (Oid × List OrderItem) =>
      ({ _id := sid kg.1, parentOrderId := parentId, vendorId := kg.2.1,
         items := kg.2.2, amount := subOrderAmount kg.2.2,
         status := .pending } : SubOrder)) =
      (fun g : Oid × List OrderItem => g.2) ∘ Prod.snd := rfl
  rw [h, ← List.map_map, List.enum_map_snd]

theorem mkSubOrders_map_vendorId (parentId : Oid) (sid : Nat → Oid)
    (gs : List (Oid × List OrderItem)) :
    (mkSubOrders parentId sid gs).map (fun so => so.vendorId) =
      gs.map (fun g => g.1) := by
  unfold mkSubOrders
  rw [List.map_map]
  have h : ((fun so : SubOrder => so.vendorId) ∘ fun kg : Nat × (Oid × List OrderItem) =>
      ({ _id := sid kg.1, parentOrderId := parentId, vendorId := kg.2.1,
         items := kg.2.2, amount := subOrderAmount kg.2.2,
         status := .pending } : SubOrder)) =
      (fun g : Oid × List OrderItem => g.1) ∘ Prod.snd := rfl
  rw [h, ← List.map_map, List.enum_map_snd]

theorem decrementStock_preserves {db : DB} {pid : Oid} {q : Int} {r : DB × Product}
    (h : decrementStock db pid q = .ok r) :
    r.1.orders = db.orders ∧ r.1.subOrders = db.subOrders := by
  unfold decrementStock at h
  cases hfind : db.products.find?
      (fun p => p._id == pid && decide (q ≤ p.stock)) with
  | none => rw [hfind] at h; simp at h
  | some p =>
    rw [hfind] at h
    injection h with h
    subst h
    exact ⟨rfl, rfl⟩

theorem applyStockUpdates_preserves :
    ∀ (us : List StockUpdate) (db db' : DB),
      applyStockUpdates db us = .ok db' →
      db'.orders = db.orders ∧ db'.subOrders = db.subOrders
  | [], db, db', h => by
    unfold applyStockUpdates at h
    injection h with h
    subst h
    exact ⟨rfl, rfl⟩
  | u :: rest, db, db', h => by
    unfold applyStockUpdates at h
    cases hd : decrementStock db u.productId u.quantity with
    | error e => rw [hd] at h; simp at h
    | ok r =>
      rw [hd] at h
      have h1 := applyStockUpdates_preserves rest r.1 db' h
      have h2 := decrementStock_preserves hd
      exact ⟨h1.1.trans h2.1, h1.2.trans h2.2⟩

theorem filter_parent_fresh {dbsubs new : List SubOrder} {oid : Oid}
    (hfresh : ∀ so ∈ dbsubs, so.parentOrderId ≠ oid)
    (hnew : ∀ so ∈ new, so.parentOrderId = oid) :
    (dbsubs ++ new).filter (fun so => so.parentOrderId == oid) = new := by
  rw [List.filter_append]
  have h1 : dbsubs.filter (fun so => so.parentOrderId == oid) = [] :=
    List.filter_eq_nil_iff.mpr (fun so hso => by simpa using hfresh so hso)
  have h2 : new.filter (fun so => so.parentOrderId == oid) = new :=
    List.filter_eq_self.mpr (fun so hso => by simpa using hnew so hso)
  rw [h1, h2, List.nil_append]

end VendorOrder

namespace VendorOrder

/-- Inversion of a successful `create`: the returned order is the one
assembled from the vendor partition, and the stored sub-orders are the
old ones plus exactly the created ones (stock reservation touches only
products). -/
theorem create_ok_inversion
    (db : DB) (dto : List OrderItemDto) (user : User) (oid : Oid) (sid : Nat → Oid)
    (order : Order) (h : (create db dto user oid sid).2 = .ok order) :
    order =
      { _id := oid, customerId := user._id,
        items := (buildAcc (getProductsInStock db
          (dto.map (fun d => d.productId))) dto).orderItems,
        totalAmount := (buildAcc (getProductsInStock db
          (dto.map (fun d => d.productId))) dto).totalAmount,
        status := .pending,
        subOrders := (mkSubOrders oid sid (buildAcc (getProductsInStock db
          (dto.map (fun d => d.productId))) dto).vendorItems).map
            (fun so => so._id) } ∧
    (create db dto user oid sid).1.subOrders =
      db.subOrders ++ mkSubOrders oid sid
        (buildAcc (getProductsInStock db
          (dto.map (fun d => d.productId))) dto).vendorItems ∧
    (missingProducts (getProductsInStock db (dto.map (fun d => d.productId)))
      (dto.map (fun d => d.productId))).isEmpty = true := by
  by_cases hr : user.role = .customer
  · cases htx : createTx db dto user oid sid with
    | error e =>
      have hc : create db dto user oid sid = (db, .error e) := by
        unfold create; rw [if_pos hr, htx]
      rw [hc] at h
      exact absurd h (by simp)
    | ok r =>
      have hc : create db dto user oid sid = (r.1, .ok r.2) := by
        unfold create; rw [if_pos hr, htx]
      rw [hc] at h ⊢
      simp only [Except.ok.injEq] at h
      subst h
      unfold createTx at htx
      simp only [] at htx
      split at htx
      next hmiss =>
        split at htx
        next heq => simp at htx
        next heq =>
          split at htx
          next heq2 => simp at htx
          next db₃ heq2 =>
            simp only [Except.ok.injEq] at htx
            have horder : r.2 = _ := congrArg Prod.snd htx.symm
            have hdb : r.1 = db₃ := congrArg Prod.fst htx.symm
            refine ⟨horder, ?_, hmiss⟩
            rw [hdb]
            have hpres := applyStockUpdates_preserves _ _ _ heq2
            rw [hpres.2]
      next hmiss => simp at htx
  · have hc : create db dto user oid sid =
        (db, .error (.forbidden "Only customers can create orders")) := by
      unfold create; rw [if_neg hr]
    rw [hc] at h
    exact absurd h (by simp)

end VendorOrder

namespace VendorOrder

/-! ## C2: conservation of amounts -/

/-- C2: for every successful `create`, the returned order's
`totalAmount` equals the sum of the `amount`s of its sub-orders (the
sub-orders stored with the new order as parent), and each sub-order's
`amount` is the sum of price×quantity over its own items. -/
theorem create_totalAmount_eq_sum_subamounts
    (db : DB) (dto : List OrderItemDto) (user : User) (oid : Oid) (sid : Nat → Oid)
    (order : Order)
    (hfresh : ∀ so ∈ db.subOrders, so.parentOrderId ≠ oid)
    (hok : (create db dto user oid sid).2 = .ok order) :
    order.totalAmount =
      ((((create db dto user oid sid).1.subOrders.filter
          (fun so => so.parentOrderId == order._id)).map
            (fun so => so.amount)).sum) ∧
    ∀ so ∈ (create db dto user oid sid).1.subOrders.filter
        (fun so => so.parentOrderId == order._id),
      so.amount = itemsTotal so.items := by
  obtain ⟨horder, hsubs, -⟩ := create_ok_inversion db dto user oid sid order hok
  have hoid : order._id = oid := by rw [horder]
  have hnew := mkSubOrders_mem oid sid (buildAcc (getProductsInStock db
    (dto.map (fun d => d.productId))) dto).vendorItems
  have hfilter : ((db.subOrders ++ mkSubOrders oid sid
      (buildAcc (getProductsInStock db
        (dto.map (fun d => d.productId))) dto).vendorItems).filter
          (fun so => so.parentOrderId == oid)) =
      mkSubOrders oid sid (buildAcc (getProductsInStock db
        (dto.map (fun d => d.productId))) dto).vendorItems :=
    filter_parent_fresh hfresh (fun so hso => (hnew so hso).1)
  constructor
  · rw [hoid, hsubs, hfilter, mkSubOrders_map_amount]
    rw [List.map_congr_left
      (fun g _ => subOrderAmount_eq_itemsTotal g.2)]
    rw [horder]
    exact foldl_stepItem_total _ dto ⟨[], [], 0, []⟩ rfl
  · rw [hoid, hsubs, hfilter]
    intro so hso
    rw [(hnew so hso).2.1, subOrderAmount_eq_itemsTotal]

/-- Witness for C2: the spec §8 end-to-end cart on `exDb` yields an
order with total 40, equal to the stored sub-amounts' sum. -/
theorem create_totalAmount_eq_sum_subamounts_witness :
    (40 : Int) =
      ((((create exDb exCart exCustomer "O1" exSid).1.subOrders.filter
          (fun so => so.parentOrderId == "O1")).map
            (fun so => so.amount)).sum) ∧
    ∀ so ∈ (create exDb exCart exCustomer "O1" exSid).1.subOrders.filter
        (fun so => so.parentOrderId == "O1"),
      so.amount = itemsTotal so.items :=
  create_totalAmount_eq_sum_subamounts exDb exCart exCustomer "O1" exSid
    (⟨"O1", "U", [⟨"A", "prodA", 10, 2, "V1"⟩, ⟨"B", "prodB", 20, 1, "V2"⟩],
      40, .pending, ["S0", "S1"]⟩ : Order)
    (by decide) (by decide)

end VendorOrder

namespace VendorOrder

theorem mkSubOrders_items_vendor (parentId : Oid) (sid : Nat → Oid)
    (gs : List (Oid × List OrderItem))
    (hinv : ∀ g ∈ gs, ∀ x ∈ g.2, x.vendorId = g.1) :
    ∀ so ∈ mkSubOrders parentId sid gs, ∀ x ∈ so.items, x.vendorId = so.vendorId := by
  intro so hso x hx
  unfold mkSubOrders at hso
  simp only [List.mem_map] at hso
  obtain ⟨kg, hkg, rfl⟩ := hso
  have hg : kg.2 ∈ gs := by
    have h2 := List.mem_map_of_mem Prod.snd hkg
    rwa [List.enum_map_snd] at h2
  exact hinv kg.2 hg x hx

/-! ## C7: partition of the cart into per-vendor sub-orders -/

/-- C7: for every successful `create`, the order's items are exactly the
cart lines in cart order; the created sub-orders' item lists together
are a permutation of those items (each item in exactly one sub-order, no
duplication, no omission); each item sits in the sub-order of its
product's vendor; and the sub-orders appear in first-encountered vendor
order. -/
theorem create_partitions_items_by_vendor
    (db : DB) (dto : List OrderItemDto) (user : User) (oid : Oid) (sid : Nat → Oid)
    (order : Order)
    (hfresh : ∀ so ∈ db.subOrders, so.parentOrderId ≠ oid)
    (hok : (create db dto user oid sid).2 = .ok order) :
    order.items.map (fun x => (x.productId, x.quantity)) =
      dto.map (fun d => (d.productId, d.quantity)) ∧
    ((((create db dto user oid sid).1.subOrders.filter
        (fun so => so.parentOrderId == order._id)).map
          (fun so => so.items)).flatten).Perm order.items ∧
    (∀ so ∈ (create db dto user oid sid).1.subOrders.filter
        (fun so => so.parentOrderId == order._id),
      ∀ x ∈ so.items, x.vendorId = so.vendorId) ∧
    ((create db dto user oid sid).1.subOrders.filter
        (fun so => so.parentOrderId == order._id)).map (fun so => so.vendorId) =
      firstOccurrences (order.items.map (fun x => x.vendorId)) := by
  obtain ⟨horder, hsubs, hmiss⟩ := create_ok_inversion db dto user oid sid order hok
  have hoid : order._id = oid := by rw [horder]
  have hnew := mkSubOrders_mem oid sid (buildAcc (getProductsInStock db
    (dto.map (fun d => d.productId))) dto).vendorItems
  have hfilter : ((db.subOrders ++ mkSubOrders oid sid
      (buildAcc (getProductsInStock db
        (dto.map (fun d => d.productId))) dto).vendorItems).filter
          (fun so => so.parentOrderId == oid)) =
      mkSubOrders oid sid (buildAcc (getProductsInStock db
        (dto.map (fun d => d.productId))) dto).vendorItems :=
    filter_parent_fresh hfresh (fun so hso => (hnew so hso).1)
  have hfound : ∀ d ∈ dto,
      (productMapGet (getProductsInStock db (dto.map (fun d => d.productId)))
        d.productId).isSome = true := by
    intro d hd
    have hmem : d.productId ∈ dto.map (fun d => d.productId) :=
      List.mem_map_of_mem _ hd
    have hnil : missingProducts (getProductsInStock db
        (dto.map (fun d => d.productId))) (dto.map (fun d => d.productId)) = [] := by
      rwa [List.isEmpty_eq_true] at hmiss
    have hni := List.filter_eq_nil_iff.mp hnil _ hmem
    cases hpm : productMapGet (getProductsInStock db
        (dto.map (fun d => d.productId))) d.productId with
    | some p => rfl
    | none => exact absurd (by rw [hpm]; rfl) hni
  refine ⟨?_, ?_, ?_, ?_⟩
  · rw [horder]
    have h2 := foldl_stepItem_items (getProductsInStock db
      (dto.map (fun d => d.productId))) dto ⟨[], [], 0, []⟩ hfound
    simpa using h2
  · rw [hoid, hsubs, hfilter, mkSubOrders_map_items, horder]
    exact foldl_stepItem_flatten_perm _ dto ⟨[], [], 0, []⟩ (by simp)
  · rw [hoid, hsubs, hfilter]
    exact mkSubOrders_items_vendor oid sid _
      (foldl_stepItem_vendors _ dto ⟨[], [], 0, []⟩ (by simp))
  · rw [hoid, hsubs, hfilter, mkSubOrders_map_vendorId, horder]
    exact foldl_stepItem_keys _ dto ⟨[], [], 0, []⟩ (by simp [firstOccurrences])

/-- Witness for C7: the spec §8 cart partitions into the V1 and V2
sub-orders in cart order. -/
theorem create_partitions_items_by_vendor_witness :
    ([(("A" : Oid), (2 : Int)), ("B", 1)] :
        List (Oid × Int)) = exCart.map (fun d => (d.productId, d.quantity)) ∧
    ((((create exDb exCart exCustomer "O1" exSid).1.subOrders.filter
        (fun so => so.parentOrderId == "O1")).map
          (fun so => so.items)).flatten).Perm
      [⟨"A", "prodA", 10, 2, "V1"⟩, ⟨"B", "prodB", 20, 1, "V2"⟩] ∧
    (∀ so ∈ (create exDb exCart exCustomer "O1" exSid).1.subOrders.filter
        (fun so => so.parentOrderId == "O1"),
      ∀ x ∈ so.items, x.vendorId = so.vendorId) ∧
    ((create exDb exCart exCustomer "O1" exSid).1.subOrders.filter
        (fun so => so.parentOrderId == "O1")).map (fun so => so.vendorId) =
      firstOccurrences ["V1", "V2"] := by
  have h := create_partitions_items_by_vendor exDb exCart exCustomer "O1" exSid
    (⟨"O1", "U", [⟨"A", "prodA", 10, 2, "V1"⟩, ⟨"B", "prodB", 20, 1, "V2"⟩],
      40, .pending, ["S0", "S1"]⟩ : Order)
    (by decide) (by decide)
  exact ⟨h.1.symm, h.2.1, h.2.2.1, h.2.2.2⟩

end VendorOrder

namespace VendorOrder

/-! ## C8: fail-fast on unavailable products -/

/-- The `missingProducts` list computed by `create` is exactly the
requested ids for which no product record with positive stock exists. -/
theorem missingProducts_eq_unavailableIds (db : DB) (ids : List Oid) :
    missingProducts (getProductsInStock db ids) ids = unavailableIds db ids := by
  apply List.filter_congr
  intro i hi
  have hcont : ∀ p : Product, p._id = i → (ids.contains p._id) = true := by
    intro p hp
    rw [hp]
    simpa using hi
  cases hfind :
      (getProductsInStock db ids).find? (fun p => p._id == i) with
  | some p =>
    have hpmem := List.mem_of_find?_eq_some hfind
    unfold getProductsInStock at hpmem
    rw [List.mem_filter, Bool.and_eq_true] at hpmem
    have hpi : (p._id == i) = true := by
      have h2 := List.find?_some hfind
      simpa using h2
    have hany : db.products.any
        (fun p => p._id == i && decide (0 < p.stock)) = true :=
      List.any_eq_true.mpr ⟨p, hpmem.1, by
        rw [Bool.and_eq_true]
        exact ⟨hpi, hpmem.2.2⟩⟩
    show (productMapGet (getProductsInStock db ids) i).isNone = _
    rw [productMapGet, hfind, hany]
    rfl
  | none =>
    have hany : db.products.any
        (fun p => p._id == i && decide (0 < p.stock)) = false := by
      rw [List.any_eq_false]
      intro p hp hcontra
      rw [Bool.and_eq_true] at hcontra
      have hpi : p._id = i := by simpa using hcontra.1
      have hpin : p ∈ getProductsInStock db ids := by
        unfold getProductsInStock
        rw [List.mem_filter, Bool.and_eq_true]
        exact ⟨hp, hcont p hpi, hcontra.2⟩
      exact (List.find?_eq_none.mp hfind p hpin) (by simp [hpi])
    show (productMapGet (getProductsInStock db ids) i).isNone = _
    rw [productMapGet, hfind, hany]
    rfl

/-- C8: when some requested product does not exist or has zero stock
(stocks being nonnegative and product ids unique), `create` fails with
the `Products not found or out of stock` error naming exactly the
requested ids lacking positive stock, and the state — in particular the
stock of every other product — is untouched. -/
theorem create_unavailable_products_fail_fast
    (db : DB) (dto : List OrderItemDto) (user : User) (oid : Oid) (sid : Nat → Oid)
    (hrole : user.role = .customer)
    (hnd : (db.products.map (fun p => p._id)).Nodup)
    (hnn : ∀ p ∈ db.products, 0 ≤ p.stock)
    (hbad : ∃ d ∈ dto, (∀ p ∈ db.products, p._id ≠ d.productId) ∨
      ∃ p ∈ db.products, p._id = d.productId ∧ p.stock = 0) :
    (create db dto user oid sid).2 =
      .error (.productsNotFound
        (unavailableIds db (dto.map (fun d => d.productId)))) ∧
    (create db dto user oid sid).1 = db := by
  obtain ⟨d, hd, hcase⟩ := hbad
  have hmem : d.productId ∈ dto.map (fun d => d.productId) :=
    List.mem_map_of_mem _ hd
  have hipred : (db.products.any
      (fun p => p._id == d.productId && decide (0 < p.stock))) = false := by
    rw [List.any_eq_false]
    intro p hp hcontra
    rw [Bool.and_eq_true] at hcontra
    have hpi : p._id = d.productId := by simpa using hcontra.1
    rcases hcase with habs | ⟨p₀, hp₀, hpi₀, hz₀⟩
    · exact habs p hp hpi
    · have hpp : p = p₀ :=
        List.inj_on_of_nodup_map hnd hp hp₀ (by rw [hpi, hpi₀])
      have : (0 : Int) < p.stock := by simpa using hcontra.2
      rw [hpp, hz₀] at this
      exact absurd this (by decide)
  have hin : d.productId ∈ unavailableIds db (dto.map (fun d => d.productId)) := by
    unfold unavailableIds
    rw [List.mem_filter]
    exact ⟨hmem, by rw [hipred]; rfl⟩
  have hne : unavailableIds db (dto.map (fun d => d.productId)) ≠ [] := by
    intro hnil
    rw [hnil] at hin
    exact absurd hin (List.not_mem_nil _)
  have hmeq := missingProducts_eq_unavailableIds db (dto.map (fun d => d.productId))
  have hnotempty : (missingProducts (getProductsInStock db
      (dto.map (fun d => d.productId)))
        (dto.map (fun d => d.productId))).isEmpty = false := by
    rw [hmeq]
    cases hcs : unavailableIds db (dto.map (fun d => d.productId)) with
    | nil => exact absurd hcs hne
    | cons a l => rfl
  have htx : createTx db dto user oid sid =
      .error (.productsNotFound (missingProducts (getProductsInStock db
        (dto.map (fun d => d.productId))) (dto.map (fun d => d.productId)))) := by
    unfold createTx
    simp only []
    rw [if_neg (by rw [hnotempty]; exact Bool.false_ne_true)]
  have hc : create db dto user oid sid =
      (db, .error (.productsNotFound (missingProducts (getProductsInStock db
        (dto.map (fun d => d.productId))) (dto.map (fun d => d.productId))))) := by
    unfold create
    rw [if_pos hrole, htx]
  rw [hc, hmeq]
  exact ⟨rfl, rfl⟩

/-- Witness for C8: the §8 insufficient-stock scenario (B present with
stock 0) fails naming exactly B, leaving the state — including A's
stock — unchanged. -/
theorem create_unavailable_products_fail_fast_witness :
    (create exDbBOut exCart exCustomer "O1" exSid).2 =
        .error (.productsNotFound
          (unavailableIds exDbBOut (exCart.map (fun d => d.productId)))) ∧
      (create exDbBOut exCart exCustomer "O1" exSid).1 = exDbBOut :=
  create_unavailable_products_fail_fast exDbBOut exCart exCustomer "O1" exSid
    (by decide) (by decide) (by decide)
    ⟨⟨"B", 1⟩, by decide, .inr ⟨{ exProductB with stock := 0 }, by decide,
      by decide, by decide⟩⟩

end VendorOrder

namespace VendorOrder

theorem checkStock_error_shape (products : List Product) :
    ∀ (dto : List OrderItemDto) (e : Err), checkStock products dto = .error e →
      (∃ pid, e = .productNotFound pid) ∨ (∃ n a r, e = .notEnoughStock n a r)
  | [], e, h => by simp [checkStock] at h
  | it :: rest, e, h => by
    unfold checkStock at h
    cases hfind : productMapGet products it.productId with
    | none =>
      rw [hfind] at h
      injection h with h
      exact .inl ⟨it.productId, h.symm⟩
    | some product =>
      rw [hfind] at h
      simp only [] at h
      by_cases hs : product.stock < it.quantity
      · rw [if_pos hs] at h
        injection h with h
        exact .inr ⟨product.name, product.stock, it.quantity, h.symm⟩
      · rw [if_neg hs] at h
        exact checkStock_error_shape products rest e h

theorem applyStockUpdates_error_shape :
    ∀ (us : List StockUpdate) (db : DB) (e : Err),
      applyStockUpdates db us = .error e → ∃ pid, e = .decrementFailed pid
  | [], db, e, h => by simp [applyStockUpdates] at h
  | u :: rest, db, e, h => by
    unfold applyStockUpdates at h
    cases hd : decrementStock db u.productId u.quantity with
    | error e' =>
      rw [hd] at h
      injection h with h
      subst h
      unfold decrementStock at hd
      cases hfind : db.products.find?
          (fun p => p._id == u.productId && decide (u.quantity ≤ p.stock)) with
      | none =>
        rw [hfind] at hd
        injection hd with hd
        exact ⟨u.productId, hd.symm⟩
      | some p => rw [hfind] at hd; simp at hd
    | ok r =>
      rw [hd] at h
      exact applyStockUpdates_error_shape rest r.1 e h

/-- Any error out of `create` for a customer caller is an availability,
stock-validation, or reservation error — the service holds no
cart-shape (emptiness / distinctness) rejection at all. -/
theorem create_error_shape
    (db : DB) (dto : List OrderItemDto) (user : User) (oid : Oid) (sid : Nat → Oid)
    (hrole : user.role = .customer) (e : Err)
    (h : (create db dto user oid sid).2 = .error e) :
    (∃ ids, e = .productsNotFound ids) ∨ (∃ pid, e = .productNotFound pid) ∨
    (∃ n a r, e = .notEnoughStock n a r) ∨ (∃ pid, e = .decrementFailed pid) := by
  cases htx : createTx db dto user oid sid with
  | ok r =>
    have hc : create db dto user oid sid = (r.1, .ok r.2) := by
      unfold create
      rw [if_pos hrole, htx]
    rw [hc] at h
    exact absurd h (by simp)
  | error e' =>
    have hc : create db dto user oid sid = (db, .error e') := by
      unfold create
      rw [if_pos hrole, htx]
    rw [hc] at h
    injection h with h
    subst h
    unfold createTx at htx
    simp only [] at htx
    split at htx
    next hmiss =>
      split at htx
      next heq =>
        injection htx with htx
        subst htx
        rcases checkStock_error_shape _ dto _ heq with h2 | h2
        · exact .inr (.inl h2)
        · exact .inr (.inr (.inl h2))
      next heq =>
        split at htx
        next heq2 =>
          injection htx with htx
          subst htx
          exact .inr (.inr (.inr (applyStockUpdates_error_shape _ _ _ heq2)))
        next db₃ heq2 => simp at htx
    next hmiss =>
      injection htx with htx
      subst htx
      exact .inl ⟨_, rfl⟩

end VendorOrder

namespace VendorOrder

/-! ## C5: is a malformed cart rejected before any storage access? -/

/-- C5 counterexample: neither malformed-cart case is rejected. The
empty cart succeeds, committing an order with no items and total 0; the
cart with two identical `A` lines also succeeds — it reads the catalog,
commits an order with the duplicated line and decrements A's stock
twice (5 to 1) — so no `InvalidInput` rejection before storage access
exists. -/
theorem create_cart_shape_not_rejected_cex :
    (create exDb [] exCustomer "O1" exSid).2 =
      .ok { _id := "O1", customerId := "U", items := [], totalAmount := 0,
            status := .pending, subOrders := [] } ∧
    (create exDb [⟨"A", 2⟩, ⟨"A", 2⟩] exCustomer "O1" exSid).2 =
      .ok { _id := "O1", customerId := "U",
            items := [⟨"A", "prodA", 10, 2, "V1"⟩, ⟨"A", "prodA", 10, 2, "V1"⟩],
            totalAmount := 40, status := .pending, subOrders := ["S0"] } ∧
    ((create exDb [⟨"A", 2⟩, ⟨"A", 2⟩] exCustomer "O1" exSid).1.product? "A").map
        (fun p => p.stock) = some 1 := by
  decide

/-- C5 (amended): `OrdersService.create` performs no cart-shape
validation. An empty cart is not rejected — the call succeeds and
returns an order with no items, totalAmount 0 and no sub-orders — and
duplicate product lines are not rejected either: each line is processed
independently, and any error from such a cart is an availability,
stock-validation or reservation error, never a malformed-cart
rejection. -/
theorem create_no_cart_shape_validation
    (db : DB) (user : User) (oid : Oid) (sid : Nat → Oid)
    (hrole : user.role = .customer) :
    (create db [] user oid sid).2 =
      .ok { _id := oid, customerId := user._id, items := [], totalAmount := 0,
            status := .pending, subOrders := [] } ∧
    ∀ (d : OrderItemDto) (e : Err),
      (create db [d, d] user oid sid).2 = .error e →
      (∃ ids, e = .productsNotFound ids) ∨ (∃ pid, e = .productNotFound pid) ∨
      (∃ n a r, e = .notEnoughStock n a r) ∨ (∃ pid, e = .decrementFailed pid) := by
  constructor
  · unfold create
    rw [if_pos hrole]
    rfl
  · intro d e h
    exact create_error_shape db [d, d] user oid sid hrole e h

/-- Witness for C5's amended statement, at the concrete catalog. -/
theorem create_no_cart_shape_validation_witness :
    (create exDb [] exCustomer "O1" exSid).2 =
      .ok { _id := "O1", customerId := "U", items := [], totalAmount := 0,
            status := .pending, subOrders := [] } ∧
    ∀ (d : OrderItemDto) (e : Err),
      (create exDb [d, d] exCustomer "O1" exSid).2 = .error e →
      (∃ ids, e = .productsNotFound ids) ∨ (∃ pid, e = .productNotFound pid) ∨
      (∃ n a r, e = .notEnoughStock n a r) ∨ (∃ pid, e = .decrementFailed pid) :=
  create_no_cart_shape_validation exDb exCustomer "O1" exSid (by decide)

end VendorOrder
